import Mathlib

set_option maxHeartbeats 1000000

/-!
Verification of the core behaviour of `src/index.py`, a Flask service that
validates and normalizes YouTube URLs, delegates extraction to `yt_dlp`,
selects a playable format, and builds the JSON response.  Python strings are
modelled as lists of characters, Python `dict.get` on optional keys as
`Option`, and the external `yt_dlp` collaborator as an explicit function
parameter describing its outcome for a given URL.
-/

namespace PyTdlp

/-- Python strings are modelled as lists of characters. -/
abbrev Str := List Char

/-- Python truthiness of an optional string: `None` and `""` are falsy. -/
def pyTruthyOpt : Option Str → Bool
  | none => false
  | some s => !s.isEmpty

/-- One entry of `info['formats']`, restricted to the keys the handler reads
(`ext`, `vcodec`, `acodec`, `height`, `url`); a `none` field models a missing
dictionary key. -/
structure CandidateFormat where
  ext : Option Str
  vcodec : Option Str
  acodec : Option Str
  height : Option Nat
  url : Option Str
deriving DecidableEq, Repr

/-- The extraction result dictionary, restricted to the keys the handler reads. -/
structure VideoInfo where
  title : Option Str
  duration : Option Nat
  thumbnail : Option Str
  uploader : Option Str
  view_count : Option Nat
  upload_date : Option Str
  description : Option Str
  formats : List CandidateFormat
deriving DecidableEq, Repr

/-- The `response_data` dictionary built on the success path of
`extract_video_info` (lines 119-129 of `src/index.py`). -/
structure ResponseData where
  video_url : Str
  title : Str
  duration : Option Nat
  thumbnail : Option Str
  uploader : Option Str
  view_count : Option Nat
  upload_date : Option Str
  description : Option Str
  original_url : Str
deriving DecidableEq, Repr

/-- The error kinds the handlers can emit. -/
inductive ErrorKind where
  | invalid_url
  | missing_url
  | extraction_failed
  | no_video_url
  | video_unavailable
  | age_restricted
  | private_video
  | extraction_error
  | internal_error
deriving DecidableEq, Repr

/-- Outcome of a handler: a JSON success body, or an error body with its
HTTP status code and error kind. -/
inductive ApiResult where
  | ok (d : ResponseData)
  | err (status : Nat) (kind : ErrorKind)
deriving DecidableEq, Repr

/-- Behaviour of the external `yt_dlp` collaborator on one URL: it returns an
info object (possibly falsy, modelled `none`), raises `DownloadError` with a
message, or raises some other exception. -/
inductive CollabResult where
  | ok (info : Option VideoInfo)
  | downloadError (msg : Str)
  | otherError (msg : Str)
deriving DecidableEq, Repr

/-! ### URL normalizer (`clean_url`, lines 42-51) -/

/-- ASCII hexadecimal digit test, as used by percent-decoding. -/
def isHexDigit (c : Char) : Bool :=
  ('0' ≤ c && c ≤ '9') || ('a' ≤ c && c ≤ 'f') || ('A' ≤ c && c ≤ 'F')

/-- Value of an ASCII hexadecimal digit. -/
def hexVal (c : Char) : Nat :=
  if '0' ≤ c && c ≤ '9' then c.toNat - '0'.toNat
  else if 'a' ≤ c && c ≤ 'f' then c.toNat - 'a'.toNat + 10
  else if 'A' ≤ c && c ≤ 'F' then c.toNat - 'A'.toNat + 10
  else 0

/-- `urllib.parse.unquote`: replace every valid `%XX` escape by the character
with code `XX` and leave invalid escapes unchanged (lenient decoding).
Multi-byte UTF-8 escape sequences are modelled one byte at a time. -/
def unquote : Str → Str
  | '%' :: a :: b :: rest =>
    if isHexDigit a && isHexDigit b then
      Char.ofNat (16 * hexVal a + hexVal b) :: unquote rest
    else
      '%' :: unquote (a :: b :: rest)
  | c :: rest => c :: unquote rest
  | [] => []

/-- `clean_url`: percent-decode, then prepend `https://` when the result does
not start with `http://` or `https://`. -/
def clean_url (url : Str) : Str :=
  let u := unquote url
  if "http://".data.isPrefixOf u || "https://".data.isPrefixOf u then u
  else "https://".data ++ u

/-! ### URL validator (`is_valid_youtube_url`, lines 30-40) -/

/-- A regex `\w` word character (ASCII) or a hyphen, the characters allowed in
a video id by the `[\w-]+` groups. -/
def wordOrHyphen (c : Char) : Bool :=
  c.isAlphanum || c = '_' || c = '-'

/-- Consume the optional `(?:https?://)?` group at the start of the
(lower-cased) input. -/
def afterScheme (s : Str) : Str :=
  if "https://".data.isPrefixOf s then s.drop 8
  else if "http://".data.isPrefixOf s then s.drop 7
  else s

/-- Consume the optional `(?:www\.)?` group. -/
def afterWww (s : Str) : Str :=
  if "www.".data.isPrefixOf s then s.drop 4 else s

/-- Match one accepted shape: its literal part followed by at least one
word-or-hyphen character; anything may follow (`re.match` anchors only at the
start). -/
def matchShape (pre s : Str) : Bool :=
  pre.isPrefixOf s &&
    (match s.drop pre.length with
     | [] => false
     | c :: _ => wordOrHyphen c)

/-- The literal parts of the five accepted URL shapes, already lower-case. -/
def shapes : List Str :=
  ["youtube.com/watch?v=".data, "youtu.be/".data, "youtube.com/embed/".data,
   "youtube.com/v/".data, "youtube.com/shorts/".data]

/-- `is_valid_youtube_url`: the five case-insensitive anchored patterns of
lines 32-38, each with optional scheme and optional `www.`. -/
def is_valid_youtube_url (url : Str) : Bool :=
  let s := afterWww (afterScheme (url.map Char.toLower))
  shapes.any (fun pre => matchShape pre s)

/-! ### Format selector (lines 90-116) -/

/-- The phase-1 loop condition of lines 96-99: combined mp4 whose
`fmt.get('height', 0)` is at most 720 (an absent height defaults to 0). -/
def phase1Pred (f : CandidateFormat) : Prop :=
  f.ext = some "mp4".data ∧ f.vcodec ≠ some "none".data ∧
  f.acodec ≠ some "none".data ∧ f.height.getD 0 ≤ 720

instance (f : CandidateFormat) : Decidable (phase1Pred f) :=
  inferInstanceAs (Decidable (_ ∧ _ ∧ _ ∧ _))

/-- The phase-1 loop of lines 95-101: `url` of the first matching format. -/
def phase1 : List CandidateFormat → Option Str
  | [] => none
  | f :: fs => if phase1Pred f then f.url else phase1 fs

/-- The key computed by the `max(..., key=lambda x: ...)` call of lines
105-109: `(x.get('height', 0) if x.get('height') and x.get('height') <= 720
else 0, 1 if x.get('ext') == 'mp4' else 0)`. -/
def selKey (f : CandidateFormat) : Nat × Nat :=
  ((match f.height with
    | some h => if h ≠ 0 ∧ h ≤ 720 then h else 0
    | none => 0),
   if f.ext = some "mp4".data then 1 else 0)

/-- Strict lexicographic order on Python pairs of integers. -/
def lexLt (p q : Nat × Nat) : Prop :=
  p.1 < q.1 ∨ (p.1 = q.1 ∧ p.2 < q.2)

instance (p q : Nat × Nat) : Decidable (lexLt p q) :=
  inferInstanceAs (Decidable (_ ∨ _))

/-- Python `max` over a non-empty sequence with a key function: scan left to
right, replacing the current best only on a strictly greater key, so the
first-encountered maximum is kept. -/
def pyMax (key : CandidateFormat → Nat × Nat) :
    CandidateFormat → List CandidateFormat → CandidateFormat
  | m, [] => m
  | m, f :: fs => pyMax key (if lexLt (key m) (key f) then f else m) fs

/-- The whole selector of lines 90-110: phase 1, then — when `video_url` is
still falsy and the list is non-empty — the phase-2 maximization. -/
def selectVideoUrl (formats : List CandidateFormat) : Option Str :=
  let v1 := phase1 formats
  if pyTruthyOpt v1 then v1
  else
    match formats with
    | [] => v1
    | f :: fs => (pyMax selKey f fs).url

/-! ### Response builder pieces -/

/-- Default title of line 121: `info.get('title', 'Video sin título')`. -/
def defaultTitle : Str := "Video sin título".data

/-- The description field of line 127:
`info.get('description', '')[:500] if info.get('description') else None`. -/
def build_description : Option Str → Option Str
  | none => none
  | some s => if s.isEmpty then none else some (s.take 500)

/-- Python substring containment `needle in haystack`. -/
def containsSub (needle : Str) : Str → Bool
  | [] => needle.isEmpty
  | c :: rest => needle.isPrefixOf (c :: rest) || containsSub needle rest

/-- The `except yt_dlp.DownloadError` classification of lines 134-158. -/
def classify_download_error (msg : Str) : ApiResult :=
  if containsSub "Video unavailable".data msg then .err 404 .video_unavailable
  else if containsSub "Sign in to confirm your age".data msg then .err 403 .age_restricted
  else if containsSub "Private video".data msg then .err 403 .private_video
  else .err 500 .extraction_error

/-- The `GET /extract/<path:url>` handler (lines 62-165), with the `yt_dlp`
collaborator passed in as `collab`. -/
def extract_video_info (collab : Str → CollabResult) (url : Str) : ApiResult :=
  let cu := clean_url url
  if is_valid_youtube_url cu = false then .err 400 .invalid_url
  else
    match collab cu with
    | .ok none => .err 400 .extraction_failed
    | .ok (some info) =>
      match selectVideoUrl info.formats with
      | none => .err 400 .no_video_url
      | some v =>
        if v.isEmpty then .err 400 .no_video_url
        else
          .ok {
            video_url := v
            title := info.title.getD defaultTitle
            duration := info.duration
            thumbnail := info.thumbnail
            uploader := info.uploader
            view_count := info.view_count
            upload_date := info.upload_date
            description := build_description info.description
            original_url := cu }
    | .downloadError msg => classify_download_error msg
    | .otherError _ => .err 500 .internal_error

/-- The `POST /extract` handler (lines 167-189): the parsed JSON body is a
string-valued dictionary (`none` when no body could be parsed). -/
def extract_video_info_post (collab : Str → CollabResult)
    (body : Option (List (Str × Str))) : ApiResult :=
  match body with
  | none => .err 400 .missing_url
  | some data =>
    if data.isEmpty then .err 400 .missing_url
    else
      match data.lookup "url".data with
      | none => .err 400 .missing_url
      | some u => extract_video_info collab u

/-! ### Specification-side definitions (written from the spec's words, to be
compared with the embedded code) -/

/-- Phase-1 condition exactly as the specification words it: the height must be
*present* and at most 720 (the code instead defaults an absent height to 0). -/
def claimPhase1Pred (f : CandidateFormat) : Prop :=
  f.ext = some "mp4".data ∧ f.vcodec ≠ some "none".data ∧
  f.acodec ≠ some "none".data ∧ ∃ h, f.height = some h ∧ h ≤ 720

/-- `effectiveHeight` as the spec words it: the height when present and at most
720, else 0. -/
def effectiveHeight (f : CandidateFormat) : Nat :=
  match f.height with
  | some h => if h ≤ 720 then h else 0
  | none => 0

/-- `mp4Bonus` as the spec words it: 1 iff the extension is "mp4". -/
def mp4Bonus (f : CandidateFormat) : Nat :=
  if f.ext = some "mp4".data then 1 else 0

/-- A URL matching one of the five accepted shapes as the spec words it: an
optional scheme, an optional `www.`, one shape literal, a non-empty sequence of
word-or-hyphen characters, and arbitrary trailing text, all matched
case-insensitively and anchored at the start. -/
def SpecValidUrl (url : Str) : Prop :=
  ∃ sch w pre id rest,
    (sch = [] ∨ sch = "http://".data ∨ sch = "https://".data) ∧
    (w = [] ∨ w = "www.".data) ∧
    pre ∈ shapes ∧
    id ≠ [] ∧ (∀ c ∈ id, wordOrHyphen c = true) ∧
    url.map Char.toLower = sch ++ w ++ pre ++ id ++ rest

/-! ### Concrete fixtures used by the scenario parts of the claims -/

def fmtWebm480 : CandidateFormat :=
  { ext := some "webm".data, vcodec := some "vp9".data, acodec := some "opus".data,
    height := some 480, url := some "uW".data }

def fmtMp4360 : CandidateFormat :=
  { ext := some "mp4".data, vcodec := some "h264".data, acodec := some "aac".data,
    height := some 360, url := some "uM".data }

def fmtWebm1080 : CandidateFormat :=
  { ext := some "webm".data, vcodec := some "vp9".data, acodec := some "opus".data,
    height := some 1080, url := some "u1080".data }

def fmtWebm240 : CandidateFormat :=
  { ext := some "webm".data, vcodec := some "vp9".data, acodec := some "opus".data,
    height := some 240, url := some "u240".data }

/-- Combined mp4 with no height key: passes the code's phase 1 (`get('height', 0)`
defaults to 0) but not the spec's "height is present" wording. -/
def fmtMp4NoHeight : CandidateFormat :=
  { ext := some "mp4".data, vcodec := some "h264".data, acodec := some "aac".data,
    height := none, url := some "uA".data }

def fmtMp4H360 : CandidateFormat :=
  { ext := some "mp4".data, vcodec := some "h264".data, acodec := some "aac".data,
    height := some 360, url := some "uB".data }

/-- Combined mp4 that matches phase 1 but carries no `url` key. -/
def fmtMp4NoUrl : CandidateFormat :=
  { ext := some "mp4".data, vcodec := some "h264".data, acodec := some "aac".data,
    height := some 360, url := none }

/-- An extraction result with an empty format list. -/
def infoEmptyFormats : VideoInfo :=
  { title := none, duration := none, thumbnail := none, uploader := none,
    view_count := none, upload_date := none, description := none, formats := [] }

/-! ### Helper lemmas about the selector -/

lemma lexLt_irrefl (p : Nat × Nat) : ¬ lexLt p p := by
  obtain ⟨a, b⟩ := p
  simp only [lexLt]
  omega

lemma lexLt_trans {p q r : Nat × Nat} (h1 : lexLt p q) (h2 : lexLt q r) : lexLt p r := by
  obtain ⟨a, b⟩ := p
  obtain ⟨c, d⟩ := q
  obtain ⟨e, f⟩ := r
  simp only [lexLt] at h1 h2 ⊢
  omega

lemma lexLt_of_lexLt_of_not_lexLt {p q r : Nat × Nat}
    (h1 : lexLt p q) (h2 : ¬ lexLt r q) : lexLt p r := by
  obtain ⟨a, b⟩ := p
  obtain ⟨c, d⟩ := q
  obtain ⟨e, f⟩ := r
  simp only [lexLt] at h1 h2 ⊢
  omega

lemma lexLt_of_not_lexLt_of_lexLt {p q r : Nat × Nat}
    (h1 : ¬ lexLt p q) (h2 : lexLt p r) : lexLt q r := by
  obtain ⟨a, b⟩ := p
  obtain ⟨c, d⟩ := q
  obtain ⟨e, f⟩ := r
  simp only [lexLt] at h1 h2 ⊢
  omega

/-- The key of the phase-2 maximization equals the spec's
`(effectiveHeight, mp4Bonus)` pair. -/
lemma selKey_eq_claim (f : CandidateFormat) :
    selKey f = (effectiveHeight f, mp4Bonus f) := by
  unfold selKey effectiveHeight mp4Bonus
  cases hh : f.height with
  | none => rfl
  | some h =>
    by_cases h0 : h = 0
    · subst h0
      simp
    · by_cases h720 : h ≤ 720 <;> simp [h0, h720]

/-- The phase-1 loop returns the `url` of the first matching format. -/
lemma phase1_append_first (l₁ : List CandidateFormat) (f : CandidateFormat)
    (l₂ : List CandidateFormat) (h₁ : ∀ g ∈ l₁, ¬ phase1Pred g) (hf : phase1Pred f) :
    phase1 (l₁ ++ f :: l₂) = f.url := by
  induction l₁ with
  | nil => simp [phase1, hf]
  | cons a l ih =>
    rw [List.cons_append]
    simp only [phase1]
    rw [if_neg (h₁ a (by simp))]
    exact ih (fun g hg => h₁ g (by simp [hg]))

/-- When no format matches, the phase-1 loop leaves `video_url` as `None`. -/
lemma phase1_none {l : List CandidateFormat} (h : ∀ f ∈ l, ¬ phase1Pred f) :
    phase1 l = none := by
  induction l with
  | nil => rfl
  | cons f fs ih =>
    simp only [phase1]
    rw [if_neg (h f (by simp))]
    exact ih (fun g hg => h g (by simp [hg]))

/-- Python's `max` with a key keeps the first-encountered maximum: the result
splits the scanned list into a strictly-smaller prefix, the result itself, and
a no-greater suffix. -/
lemma pyMax_first_max (key : CandidateFormat → Nat × Nat) :
    ∀ (fs : List CandidateFormat) (m : CandidateFormat),
    ∃ l₁ l₂, m :: fs = l₁ ++ pyMax key m fs :: l₂ ∧
      (∀ f ∈ l₁, lexLt (key f) (key (pyMax key m fs))) ∧
      (∀ f ∈ m :: fs, ¬ lexLt (key (pyMax key m fs)) (key f)) := by
  intro fs
  induction fs with
  | nil =>
    intro m
    refine ⟨[], [], rfl, by simp, ?_⟩
    intro f hf
    simp only [List.mem_singleton] at hf
    subst hf
    exact lexLt_irrefl _
  | cons f fs ih =>
    intro m
    by_cases hc : lexLt (key m) (key f)
    · have hdef : pyMax key m (f :: fs) = pyMax key f fs := by
        simp [pyMax, hc]
      obtain ⟨l₁, l₂, hdec, hstrict, hmax⟩ := ih f
      rw [hdef]
      refine ⟨m :: l₁, l₂, ?_, ?_, ?_⟩
      · rw [List.cons_append, ← hdec]
      · intro g hg
        rcases List.mem_cons.mp hg with hg | hg
        · subst hg
          exact lexLt_of_lexLt_of_not_lexLt hc (hmax f (by simp))
        · exact hstrict g hg
      · intro g hg
        rcases List.mem_cons.mp hg with hg | hg
        · subst hg
          intro hcon
          exact hmax f (by simp) (lexLt_trans hcon hc)
        · exact hmax g hg
    · have hdef : pyMax key m (f :: fs) = pyMax key m fs := by
        simp [pyMax, hc]
      obtain ⟨l₁, l₂, hdec, hstrict, hmax⟩ := ih m
      rw [hdef]
      cases l₁ with
      | nil =>
        simp only [List.nil_append, List.cons.injEq] at hdec
        obtain ⟨hr, hl⟩ := hdec
        refine ⟨[], f :: fs, ?_, by simp, ?_⟩
        · rw [List.nil_append, ← hr]
        · intro g hg
          rcases List.mem_cons.mp hg with hg | hg
          · subst hg
            rw [← hr]
            exact lexLt_irrefl _
          rcases List.mem_cons.mp hg with hg | hg
          · subst hg
            rw [← hr]
            exact hc
          · exact hmax g (List.mem_cons_of_mem m hg)
      | cons m' l₁' =>
        simp only [List.cons_append, List.cons.injEq] at hdec
        obtain ⟨hm, hfs⟩ := hdec
        have hmr : lexLt (key m) (key (pyMax key m fs)) := by
          have h0 := hstrict m' (by simp)
          rw [← hm] at h0
          exact h0
        refine ⟨m :: f :: l₁', l₂, ?_, ?_, ?_⟩
        · simp only [List.cons_append]
          exact congrArg (List.cons m) (congrArg (List.cons f) hfs)
        · intro g hg
          rcases List.mem_cons.mp hg with hg | hg
          · subst hg
            exact hmr
          rcases List.mem_cons.mp hg with hg | hg
          · subst hg
            exact lexLt_of_not_lexLt_of_lexLt hc hmr
          · exact hstrict g (List.mem_cons_of_mem m' hg)
        · intro g hg
          rcases List.mem_cons.mp hg with hg | hg
          · rw [hg]
            exact hmax m (by simp)
          rcases List.mem_cons.mp hg with hg | hg
          · rw [hg]
            intro hcon
            exact hc (lexLt_trans hmr hcon)
          · exact hmax g (List.mem_cons_of_mem m hg)

/-- When `video_url` is falsy after phase 1 and the list is non-empty, the
selector returns the `url` of the phase-2 maximum. -/
lemma selectVideoUrl_falsy_phase1 (f0 : CandidateFormat) (rest : List CandidateFormat)
    (h : pyTruthyOpt (phase1 (f0 :: rest)) = false) :
    selectVideoUrl (f0 :: rest) = (pyMax selKey f0 rest).url := by
  simp only [selectVideoUrl]
  rw [h]
  simp

/-! ### Helper lemmas about the validator -/

lemma isPrefixOf_append_self (p t : Str) : p.isPrefixOf (p ++ t) = true := by
  rw [List.isPrefixOf_iff_prefix]
  exact List.prefix_append p t

lemma isPrefixOf_cons_ne (a c : Char) (h : a ≠ c) (p l : Str) :
    (a :: p).isPrefixOf (c :: l) = false := by
  simp only [List.isPrefixOf]
  rw [beq_eq_false_iff_ne.mpr h]
  rfl

lemma isPrefixOf_https_http (t : Str) :
    "https://".data.isPrefixOf ("http://".data ++ t) = false := by
  show List.isPrefixOf ('h' :: 't' :: 't' :: 'p' :: 's' :: ':' :: '/' :: '/' :: [])
    ('h' :: 't' :: 't' :: 'p' :: ':' :: '/' :: '/' :: t) = false
  simp only [List.isPrefixOf]
  rw [beq_eq_false_iff_ne.mpr (show ('s' : Char) ≠ ':' by decide)]
  simp

lemma afterScheme_https (t : Str) : afterScheme ("https://".data ++ t) = t := by
  unfold afterScheme
  rw [isPrefixOf_append_self "https://".data t]
  simp only [if_true]
  exact List.drop_left' (by rfl)

lemma afterScheme_http (t : Str) : afterScheme ("http://".data ++ t) = t := by
  unfold afterScheme
  rw [isPrefixOf_https_http t, isPrefixOf_append_self "http://".data t]
  simp only [Bool.false_eq_true, if_false, if_true]
  exact List.drop_left' (by rfl)

lemma afterScheme_ne_h (c : Char) (l : Str) (h : c ≠ 'h') :
    afterScheme (c :: l) = c :: l := by
  unfold afterScheme
  rw [isPrefixOf_cons_ne 'h' c (fun e => h e.symm) "ttps://".data l,
    isPrefixOf_cons_ne 'h' c (fun e => h e.symm) "ttp://".data l]
  simp

lemma afterWww_www (t : Str) : afterWww ("www.".data ++ t) = t := by
  unfold afterWww
  rw [isPrefixOf_append_self "www.".data t]
  simp only [if_true]
  exact List.drop_left' (by rfl)

lemma afterWww_ne_w (c : Char) (l : Str) (h : c ≠ 'w') :
    afterWww (c :: l) = c :: l := by
  unfold afterWww
  rw [isPrefixOf_cons_ne 'w' c (fun e => h e.symm) "ww.".data l]
  simp

lemma afterScheme_decomp (l : Str) :
    ∃ sch, (sch = [] ∨ sch = "http://".data ∨ sch = "https://".data) ∧
      l = sch ++ afterScheme l := by
  unfold afterScheme
  split
  · next h1 =>
    refine ⟨"https://".data, by simp, ?_⟩
    rw [List.isPrefixOf_iff_prefix] at h1
    obtain ⟨t, ht⟩ := h1
    rw [← ht, List.drop_left' (by rfl)]
  · split
    · next h2 =>
      refine ⟨"http://".data, by simp, ?_⟩
      rw [List.isPrefixOf_iff_prefix] at h2
      obtain ⟨t, ht⟩ := h2
      rw [← ht, List.drop_left' (by rfl)]
    · exact ⟨[], by simp, by simp⟩

lemma afterWww_decomp (s : Str) :
    ∃ w, (w = [] ∨ w = "www.".data) ∧ s = w ++ afterWww s := by
  unfold afterWww
  split
  · next h1 =>
    refine ⟨"www.".data, by simp, ?_⟩
    rw [List.isPrefixOf_iff_prefix] at h1
    obtain ⟨t, ht⟩ := h1
    rw [← ht, List.drop_left' (by rfl)]
  · exact ⟨[], by simp, by simp⟩

lemma matchShape_true_decomp {pre s : Str} (h : matchShape pre s = true) :
    ∃ c r, s = pre ++ c :: r ∧ wordOrHyphen c = true := by
  unfold matchShape at h
  rw [Bool.and_eq_true] at h
  obtain ⟨hp, hid⟩ := h
  rw [List.isPrefixOf_iff_prefix] at hp
  obtain ⟨t, ht⟩ := hp
  rw [← ht] at hid
  rw [List.drop_left] at hid
  cases t with
  | nil => simp at hid
  | cons c r => exact ⟨c, r, ht.symm, hid⟩

lemma matchShape_append (pre : Str) (c : Char) (r : Str) (hc : wordOrHyphen c = true) :
    matchShape pre (pre ++ c :: r) = true := by
  unfold matchShape
  rw [isPrefixOf_append_self, List.drop_left]
  simpa using hc

lemma shapes_start_y : ∀ pre ∈ shapes, ∃ t, pre = 'y' :: t := by
  intro pre hp
  fin_cases hp <;> exact ⟨_, rfl⟩

/-- Lenient percent-decoding leaves a string without a percent sign unchanged. -/
lemma unquote_no_percent : ∀ l : Str, (∀ c ∈ l, c ≠ '%') → unquote l = l := by
  intro l
  induction l with
  | nil => intro _; rfl
  | cons c rest ih =>
    intro h
    have hc : c ≠ '%' := h c (by simp)
    have hrest : unquote rest = rest := ih (fun d hd => h d (by simp [hd]))
    rw [unquote.eq_def]
    split
    · next a b rest2 heq =>
      rw [List.cons.injEq] at heq
      exact absurd heq.1 hc
    · next c' rest' heq =>
      rw [List.cons.injEq] at heq
      obtain ⟨h1, h2⟩ := heq
      rw [← h1, ← h2, hrest]
    · next heq => simp at heq

/-- C7: the normalizer is idempotent on already-normalized https URLs — a URL
that starts with `https://` and holds no percent sign is a fixed point of
`clean_url`, so normalizing twice equals normalizing once. -/
theorem clean_url_idempotent_on_normalized :
    ∀ u : Str, "https://".data.isPrefixOf u = true → (∀ c ∈ u, c ≠ '%') →
      clean_url u = u ∧ clean_url (clean_url u) = clean_url u := by
  intro u hpre hnp
  have h1 : clean_url u = u := by
    simp only [clean_url]
    rw [unquote_no_percent u hnp, hpre]
    simp
  exact ⟨h1, by rw [h1, h1]⟩

theorem clean_url_idempotent_on_normalized_witness :
    clean_url "https://youtu.be/abc".data = "https://youtu.be/abc".data ∧
    clean_url (clean_url "https://youtu.be/abc".data) =
      clean_url "https://youtu.be/abc".data :=
  clean_url_idempotent_on_normalized "https://youtu.be/abc".data (by decide) (by decide)

/-- C1 (amended): phase 1 of the selector returns the playback URL of the
first format whose extension is "mp4", whose codecs are not "none", and whose
height is absent or at most 720 (the code defaults an absent height to 0); in
particular on `[{ext:webm,h:480}, {ext:mp4,vcodec,acodec,h:360}]` it selects
the mp4 entry even though the webm entry comes first. -/
theorem phase1_selects_first_combined_mp4 :
    (∀ (l₁ : List CandidateFormat) (f : CandidateFormat) (l₂ : List CandidateFormat),
      (∀ g ∈ l₁, ¬ phase1Pred g) → phase1Pred f →
      phase1 (l₁ ++ f :: l₂) = f.url) ∧
    (∀ f : CandidateFormat,
      phase1Pred f ↔
        (f.ext = some "mp4".data ∧ f.vcodec ≠ some "none".data ∧
         f.acodec ≠ some "none".data ∧
         (f.height = none ∨ ∃ h, f.height = some h ∧ h ≤ 720))) ∧
    selectVideoUrl [fmtWebm480, fmtMp4360] = some "uM".data := by
  refine ⟨phase1_append_first, ?_, by decide⟩
  intro f
  unfold phase1Pred
  constructor
  · rintro ⟨h1, h2, h3, h4⟩
    refine ⟨h1, h2, h3, ?_⟩
    cases hh : f.height with
    | none => exact Or.inl rfl
    | some h =>
      right
      rw [hh] at h4
      exact ⟨h, rfl, by simpa using h4⟩
  · rintro ⟨h1, h2, h3, h4⟩
    refine ⟨h1, h2, h3, ?_⟩
    rcases h4 with h4 | ⟨h, hh, hle⟩
    · simp [h4]
    · simp [hh, hle]

/-- C1 counterexample: the claim as stated (height must be *present* and at
most 720) is false on `[fmtMp4NoHeight, fmtMp4H360]` — the first format
satisfying the claim's predicate is `fmtMp4H360` with URL "uB", yet the
selector returns "uA" because `get('height', 0)` lets the height-less mp4
match phase 1. -/
theorem phase1_requires_present_height_cex :
    claimPhase1Pred fmtMp4H360 ∧ ¬ claimPhase1Pred fmtMp4NoHeight ∧
    fmtMp4H360.url = some "uB".data ∧
    selectVideoUrl [fmtMp4NoHeight, fmtMp4H360] = some "uA".data ∧
    some "uA".data ≠ fmtMp4H360.url := by
  refine ⟨⟨rfl, by decide, by decide, 360, rfl, by omega⟩, ?_, rfl, by decide, by decide⟩
  rintro ⟨-, -, -, h, hh, -⟩
  simp [fmtMp4NoHeight] at hh

theorem phase1_selects_first_combined_mp4_witness :
    phase1 ([fmtWebm480] ++ fmtMp4360 :: []) = fmtMp4360.url :=
  phase1_selects_first_combined_mp4.1 [fmtWebm480] fmtMp4360 [] (by decide) (by decide)

/-- C2: when no format satisfies the phase-1 predicate, the selector returns
the url of the format maximizing `(effectiveHeight, mp4Bonus)` lexicographically,
keeping the first-encountered format among equal maxima; in particular on
`[{ext:webm,h:1080}, {ext:webm,h:240}]` it selects the 240p entry. -/
theorem phase2_picks_first_lex_max :
    (∀ (f0 : CandidateFormat) (rest : List CandidateFormat),
      (∀ f ∈ f0 :: rest, ¬ phase1Pred f) →
      ∃ m l₁ l₂,
        selectVideoUrl (f0 :: rest) = m.url ∧
        f0 :: rest = l₁ ++ m :: l₂ ∧
        (∀ f ∈ l₁, lexLt (effectiveHeight f, mp4Bonus f) (effectiveHeight m, mp4Bonus m)) ∧
        (∀ f ∈ f0 :: rest,
          ¬ lexLt (effectiveHeight m, mp4Bonus m) (effectiveHeight f, mp4Bonus f))) ∧
    selectVideoUrl [fmtWebm1080, fmtWebm240] = some "u240".data := by
  refine ⟨?_, by decide⟩
  intro f0 rest hno
  have hp1 : phase1 (f0 :: rest) = none := phase1_none hno
  have hsel : selectVideoUrl (f0 :: rest) = (pyMax selKey f0 rest).url :=
    selectVideoUrl_falsy_phase1 f0 rest (by rw [hp1]; rfl)
  obtain ⟨l₁, l₂, hdec, hstrict, hmax⟩ := pyMax_first_max selKey rest f0
  refine ⟨pyMax selKey f0 rest, l₁, l₂, hsel, hdec, ?_, ?_⟩
  · intro f hf
    have h0 := hstrict f hf
    rwa [selKey_eq_claim, selKey_eq_claim] at h0
  · intro f hf
    have h0 := hmax f hf
    rwa [selKey_eq_claim, selKey_eq_claim] at h0

theorem phase2_picks_first_lex_max_witness :
    ∃ m l₁ l₂,
      selectVideoUrl (fmtWebm1080 :: [fmtWebm240]) = m.url ∧
      fmtWebm1080 :: [fmtWebm240] = l₁ ++ m :: l₂ ∧
      (∀ f ∈ l₁, lexLt (effectiveHeight f, mp4Bonus f) (effectiveHeight m, mp4Bonus m)) ∧
      (∀ f ∈ fmtWebm1080 :: [fmtWebm240],
        ¬ lexLt (effectiveHeight m, mp4Bonus m) (effectiveHeight f, mp4Bonus f)) :=
  phase2_picks_first_lex_max.1 fmtWebm1080 [fmtWebm240] (by decide)

/-- C3: an empty format list, or a falsy `video_url` out of both phases,
makes the request fail as a whole with HTTP 400 and kind `no_video_url`. -/
theorem empty_or_urlless_formats_give_no_video_url :
    ∀ (collab : Str → CollabResult) (u : Str) (info : VideoInfo),
      is_valid_youtube_url (clean_url u) = true →
      collab (clean_url u) = .ok (some info) →
      (info.formats = [] ∨ pyTruthyOpt (selectVideoUrl info.formats) = false) →
      extract_video_info collab u = .err 400 .no_video_url := by
  intro collab u info hv hc hsel
  have hvu : pyTruthyOpt (selectVideoUrl info.formats) = false := by
    rcases hsel with h | h
    · rw [h]
      rfl
    · exact h
  simp only [extract_video_info, hv, hc, Bool.true_eq_false, if_false]
  cases hs : selectVideoUrl info.formats with
  | none => simp
  | some v =>
    rw [hs] at hvu
    have h1 : (!v.isEmpty) = false := by simpa [pyTruthyOpt] using hvu
    have h2 : v.isEmpty = true := by
      revert h1
      cases v.isEmpty <;> simp
    simp [h2]

theorem empty_or_urlless_formats_give_no_video_url_witness :
    extract_video_info (fun _ => CollabResult.ok (some infoEmptyFormats))
      "https://youtu.be/abc".data = .err 400 .no_video_url :=
  empty_or_urlless_formats_give_no_video_url _ _ infoEmptyFormats (by decide) rfl (Or.inl rfl)

/-- C9: when the first phase-1-matching format has an absent or empty `url`,
`video_url` is still falsy after phase 1, so the selector falls back to the
phase-2 maximization over the whole non-empty list instead of failing. -/
theorem phase1_falsy_url_falls_back_to_phase2 :
    ∀ (l₁ : List CandidateFormat) (f : CandidateFormat) (l₂ : List CandidateFormat),
      (∀ g ∈ l₁, ¬ phase1Pred g) → phase1Pred f →
      (f.url = none ∨ f.url = some []) →
      ∃ f0 rest, l₁ ++ f :: l₂ = f0 :: rest ∧
        pyTruthyOpt (phase1 (l₁ ++ f :: l₂)) = false ∧
        selectVideoUrl (l₁ ++ f :: l₂) = (pyMax selKey f0 rest).url := by
  intro l₁ f l₂ h₁ hf hu
  have hp1 : phase1 (l₁ ++ f :: l₂) = f.url := phase1_append_first l₁ f l₂ h₁ hf
  have hfalsy : pyTruthyOpt (phase1 (l₁ ++ f :: l₂)) = false := by
    rw [hp1]
    rcases hu with h | h <;> rw [h] <;> rfl
  cases l₁ with
  | nil =>
    rw [List.nil_append] at hfalsy ⊢
    exact ⟨f, l₂, rfl, hfalsy, selectVideoUrl_falsy_phase1 f l₂ hfalsy⟩
  | cons a l₁' =>
    rw [List.cons_append] at hfalsy ⊢
    exact ⟨a, l₁' ++ f :: l₂, rfl, hfalsy,
      selectVideoUrl_falsy_phase1 a (l₁' ++ f :: l₂) hfalsy⟩

/-- C4: the validator accepts exactly the strings matching, case-insensitively
and anchored at the start, one of the five accepted YouTube URL shapes with
optional scheme and `www.` and a non-empty word-or-hyphen id; in particular it
rejects "https://vimeo.com/123", "" and "youtube.com". -/
theorem validator_matches_spec_shapes :
    (∀ url : Str, is_valid_youtube_url url = true ↔ SpecValidUrl url) ∧
    is_valid_youtube_url "https://vimeo.com/123".data = false ∧
    is_valid_youtube_url [] = false ∧
    is_valid_youtube_url "youtube.com".data = false := by
  refine ⟨?_, by decide, by decide, by decide⟩
  intro url
  constructor
  · intro h
    simp only [is_valid_youtube_url] at h
    rw [List.any_eq_true] at h
    obtain ⟨pre, hpre, hm⟩ := h
    obtain ⟨c, r, hs2, hc⟩ := matchShape_true_decomp hm
    obtain ⟨w, hw, hws⟩ := afterWww_decomp (afterScheme (url.map Char.toLower))
    obtain ⟨sch, hsch, hls⟩ := afterScheme_decomp (url.map Char.toLower)
    refine ⟨sch, w, pre, [c], r, hsch, hw, hpre, by simp, by simpa using hc, ?_⟩
    rw [hls, hws, hs2]
    simp
  · rintro ⟨sch, w, pre, id, rest, hsch, hw, hpre, hidne, hidw, heq⟩
    obtain ⟨c, id', rfl⟩ : ∃ c id', id = c :: id' := by
      cases id with
      | nil => exact absurd rfl hidne
      | cons c id' => exact ⟨c, id', rfl⟩
    obtain ⟨p', hp'⟩ := shapes_start_y pre hpre
    have hcw : wordOrHyphen c = true := hidw c (by simp)
    simp only [is_valid_youtube_url]
    rw [List.any_eq_true]
    refine ⟨pre, hpre, ?_⟩
    rw [heq]
    simp only [List.append_assoc, List.cons_append]
    have h1 : afterScheme (sch ++ (w ++ (pre ++ (c :: (id' ++ rest))))) =
        w ++ (pre ++ (c :: (id' ++ rest))) := by
      rcases hsch with rfl | rfl | rfl
      · rw [List.nil_append]
        rcases hw with rfl | rfl
        · rw [List.nil_append, hp', List.cons_append]
          exact afterScheme_ne_h 'y' _ (by decide)
        · exact afterScheme_ne_h 'w' ("ww.".data ++ (pre ++ (c :: (id' ++ rest)))) (by decide)
      · exact afterScheme_http _
      · exact afterScheme_https _
    rw [h1]
    have h2 : afterWww (w ++ (pre ++ (c :: (id' ++ rest)))) =
        pre ++ (c :: (id' ++ rest)) := by
      rcases hw with rfl | rfl
      · rw [List.nil_append, hp', List.cons_append]
        exact afterWww_ne_w 'y' _ (by decide)
      · exact afterWww_www _
    rw [h2]
    exact matchShape_append pre c (id' ++ rest) hcw

/-- C5: a `DownloadError` from the collaborator is classified by substring
inspection of its message, in order: "Video unavailable" to 404
video_unavailable, "Sign in to confirm your age" to 403 age_restricted,
"Private video" to 403 private_video, anything else to 500 extraction_error. -/
theorem download_error_classified_by_substring :
    ∀ (collab : Str → CollabResult) (u msg : Str),
      is_valid_youtube_url (clean_url u) = true →
      collab (clean_url u) = .downloadError msg →
      extract_video_info collab u = classify_download_error msg ∧
      (containsSub "Video unavailable".data msg = true →
        classify_download_error msg = .err 404 .video_unavailable) ∧
      (containsSub "Video unavailable".data msg = false →
       containsSub "Sign in to confirm your age".data msg = true →
        classify_download_error msg = .err 403 .age_restricted) ∧
      (containsSub "Video unavailable".data msg = false →
       containsSub "Sign in to confirm your age".data msg = false →
       containsSub "Private video".data msg = true →
        classify_download_error msg = .err 403 .private_video) ∧
      (containsSub "Video unavailable".data msg = false →
       containsSub "Sign in to confirm your age".data msg = false →
       containsSub "Private video".data msg = false →
        classify_download_error msg = .err 500 .extraction_error) := by
  intro collab u msg hv hc
  refine ⟨?_, ?_, ?_, ?_, ?_⟩
  · simp only [extract_video_info, hv, hc, Bool.true_eq_false, if_false]
  · intro h1
    simp [classify_download_error, h1]
  · intro h1 h2
    simp [classify_download_error, h1, h2]
  · intro h1 h2 h3
    simp [classify_download_error, h1, h2, h3]
  · intro h1 h2 h3
    simp [classify_download_error, h1, h2, h3]

theorem download_error_classified_by_substring_witness :
    extract_video_info (fun _ => CollabResult.downloadError "ERROR: Private video".data)
      "https://youtu.be/abc".data = classify_download_error "ERROR: Private video".data ∧
    classify_download_error "ERROR: Video unavailable".data = .err 404 .video_unavailable ∧
    classify_download_error "ERROR: Sign in to confirm your age".data = .err 403 .age_restricted ∧
    classify_download_error "ERROR: Private video".data = .err 403 .private_video ∧
    classify_download_error "boom".data = .err 500 .extraction_error :=
  ⟨(download_error_classified_by_substring _ "https://youtu.be/abc".data
      "ERROR: Private video".data (by decide) rfl).1,
   (download_error_classified_by_substring
      (fun _ => CollabResult.downloadError "ERROR: Video unavailable".data)
      "https://youtu.be/abc".data "ERROR: Video unavailable".data (by decide) rfl).2.1
      (by decide),
   (download_error_classified_by_substring
      (fun _ => CollabResult.downloadError "ERROR: Sign in to confirm your age".data)
      "https://youtu.be/abc".data "ERROR: Sign in to confirm your age".data (by decide) rfl).2.2.1
      (by decide) (by decide),
   (download_error_classified_by_substring
      (fun _ => CollabResult.downloadError "ERROR: Private video".data)
      "https://youtu.be/abc".data "ERROR: Private video".data (by decide) rfl).2.2.2.1
      (by decide) (by decide) (by decide),
   (download_error_classified_by_substring
      (fun _ => CollabResult.downloadError "boom".data)
      "https://youtu.be/abc".data "boom".data (by decide) rfl).2.2.2.2
      (by decide) (by decide) (by decide)⟩

/-- C6: a 600-character description is returned as exactly its first 500
characters, a present description never exceeds 500 characters, and an absent
description yields `None`. -/
theorem description_truncated_to_500 :
    ∀ s : Str, s.length = 600 →
      build_description (some s) = some (s.take 500) ∧
      (s.take 500).length = 500 ∧
      (∀ d t, build_description d = some t → t.length ≤ 500) ∧
      build_description none = none := by
  intro s h600
  have hne : s.isEmpty = false := by
    cases s with
    | nil => simp at h600
    | cons c r => rfl
  refine ⟨by simp [build_description, hne], ?_, ?_, rfl⟩
  · rw [List.length_take, h600]
    omega
  · intro d t h
    cases d with
    | none => simp [build_description] at h
    | some s' =>
      by_cases he : s'.isEmpty
      · simp [build_description, he] at h
      · simp [build_description, he] at h
        rw [← h, List.length_take]
        omega

theorem description_truncated_to_500_witness :
    build_description (some (List.replicate 600 'a')) =
      some ((List.replicate 600 'a').take 500) :=
  (description_truncated_to_500 (List.replicate 600 'a') (by rw [List.length_replicate])).1

/-- C10: a present-but-empty description is sent as `None`, exactly as an
absent one: the whole handler response is identical in the two cases. -/
theorem empty_description_indistinguishable_from_absent :
    build_description (some []) = build_description none ∧
    (∀ (info : VideoInfo) (u : Str),
      extract_video_info (fun _ => .ok (some { info with description := some [] })) u =
      extract_video_info (fun _ => .ok (some { info with description := none })) u) := by
  refine ⟨rfl, ?_⟩
  intro info u
  by_cases hv : is_valid_youtube_url (clean_url u) = false
  · simp [extract_video_info, hv]
  · have hv' : is_valid_youtube_url (clean_url u) = true := by
      revert hv
      cases is_valid_youtube_url (clean_url u) <;> simp
    simp only [extract_video_info, hv', Bool.true_eq_false, if_false]
    cases hs : selectVideoUrl info.formats with
    | none => simp
    | some v =>
      by_cases he : v.isEmpty <;> simp [he, build_description]

/-- C8: POST /extract delegates to the same pipeline as the GET variant for a
body carrying a `url` key, and fails with 400 missing_url when the body is
absent or lacks the key. -/
theorem post_delegates_and_requires_url :
    ∀ collab : Str → CollabResult,
      extract_video_info_post collab none = .err 400 .missing_url ∧
      (∀ data : List (Str × Str), data.lookup "url".data = none →
        extract_video_info_post collab (some data) = .err 400 .missing_url) ∧
      (∀ (data : List (Str × Str)) (u : Str), data.lookup "url".data = some u →
        extract_video_info_post collab (some data) = extract_video_info collab u) ∧
      (∀ u : Str,
        extract_video_info_post collab (some [("url".data, u)]) =
          extract_video_info collab u) := by
  intro collab
  refine ⟨rfl, ?_, ?_, ?_⟩
  · intro data h
    cases data with
    | nil => rfl
    | cons p rest => simp [extract_video_info_post, h]
  · intro data u h
    cases data with
    | nil => simp [List.lookup] at h
    | cons p rest => simp [extract_video_info_post, h]
  · intro u
    simp [extract_video_info_post, List.lookup]

theorem post_delegates_and_requires_url_witness :
    extract_video_info_post (fun _ => CollabResult.otherError [])
        (some [("url".data, "https://youtu.be/abc".data)]) =
      extract_video_info (fun _ => CollabResult.otherError []) "https://youtu.be/abc".data ∧
    extract_video_info_post (fun _ => CollabResult.otherError [])
        (some [("foo".data, "bar".data)]) = .err 400 .missing_url :=
  ⟨(post_delegates_and_requires_url _).2.2.1 [("url".data, "https://youtu.be/abc".data)]
      "https://youtu.be/abc".data (by decide),
   (post_delegates_and_requires_url _).2.1 [("foo".data, "bar".data)] (by decide)⟩

theorem phase1_falsy_url_falls_back_to_phase2_witness :
    ∃ f0 rest, [fmtWebm480] ++ fmtMp4NoUrl :: [fmtWebm240] = f0 :: rest ∧
      pyTruthyOpt (phase1 ([fmtWebm480] ++ fmtMp4NoUrl :: [fmtWebm240])) = false ∧
      selectVideoUrl ([fmtWebm480] ++ fmtMp4NoUrl :: [fmtWebm240]) =
        (pyMax selKey f0 rest).url :=
  phase1_falsy_url_falls_back_to_phase2 [fmtWebm480] fmtMp4NoUrl [fmtWebm240]
    (by decide) (by decide) (Or.inl rfl)

end PyTdlp
